import Mathlib

/-!
Verification of the GCOV coverage-assistant pipeline.

This file gives a shallow embedding of the core of the repository:
the repository analyzer, the Gcov compatibility checker, the fallback
modification generator, the transactional apply/rollback of build-file
patches (all from `llm_coverage_assistant.py`), and the per-line parser
of annotated `.gcov` artifacts (`generate_coverage.py`,
`_parse_gcov_files`).  The working tree is modelled as an association
list from path strings to file contents; Python string helpers
(`strip`, `lower`, `in`, `isdigit`, `split(':', 2)`,
`Path.with_suffix`) are modelled by executable Lean functions of the
same semantics.  Theorems about the embedding follow the definitions.
-/

set_option maxHeartbeats 1000000

namespace Gcov

/-! ## Python string primitives -/

/-- Python `str.strip()`: remove leading and trailing whitespace. -/
def stripStr (s : String) : String :=
  String.mk ((s.toList.dropWhile Char.isWhitespace).reverse.dropWhile Char.isWhitespace).reverse

/-- Python `str.rstrip()`: remove trailing whitespace. -/
def rstripStr (s : String) : String :=
  String.mk (s.toList.reverse.dropWhile Char.isWhitespace).reverse

/-- Python `str.lower()` (ASCII range, which covers every name and flag
the program compares). -/
def lowerStr (s : String) : String :=
  String.mk (s.toList.map Char.toLower)

/-- Python substring membership `pat in s`. -/
def strContains (s pat : String) : Bool :=
  (List.range (s.toList.length + 1)).any fun i => pat.toList.isPrefixOf (s.toList.drop i)

/-- Python `str.isdigit()` on ASCII text: non-empty and every character
a decimal digit. -/
def isdigitStr (s : String) : Bool :=
  !s.toList.isEmpty && s.toList.all Char.isDigit

/-- Python `int()` on a decimal digit string. -/
def strToNat (s : String) : Nat :=
  s.toList.foldl (fun n c => n * 10 + (c.toNat - 48)) 0

/-- Split a character list at its first colon: `some (before, after)`,
or `none` when there is no colon. -/
def splitFirst : List Char → Option (List Char × List Char)
  | [] => none
  | c :: cs =>
    if c = ':' then some ([], cs)
    else
      match splitFirst cs with
      | none => none
      | some (a, b) => some (c :: a, b)

/-- Python `line.split(':', 2)`: at most two splits, so at most three
parts, the third keeping any further colons. -/
def split2 (line : String) : List String :=
  match splitFirst line.toList with
  | none => [line]
  | some (a, rest) =>
    match splitFirst rest with
    | none => [String.mk a, String.mk rest]
    | some (b, rest2) => [String.mk a, String.mk b, String.mk rest2]

/-! ## Python `pathlib` path helpers -/

/-- Index of the last occurrence of `c`, counting from `i`. -/
def lastIndexOfAux (c : Char) : List Char → Nat → Option Nat
  | [], _ => none
  | x :: xs, i =>
    match lastIndexOfAux c xs (i + 1) with
    | some j => some j
    | none => if x = c then some i else none

/-- Index of the last occurrence of a character in a list. -/
def lastIndexOf (c : Char) (cs : List Char) : Option Nat :=
  lastIndexOfAux c cs 0

/-- Characters of the final path component: scan, restarting after
every `'/'`, accumulating the current component reversed. -/
def lastComponent : List Char → List Char → List Char
  | cur, [] => cur.reverse
  | cur, c :: cs => if c = '/' then lastComponent [] cs else lastComponent (c :: cur) cs

/-- Python `Path(p).name`: the final path component. -/
def pathName (p : String) : String :=
  String.mk (lastComponent [] p.toList)

/-- Python `Path(p).suffix`: the extension of the final component, from
its last dot, empty when the dot is leading or trailing or absent. -/
def pathSuffix (p : String) : String :=
  let cs := (pathName p).toList
  match lastIndexOf '.' cs with
  | some i => if 0 < i ∧ i + 1 < cs.length then String.mk (cs.drop i) else ""
  | none => ""

/-- Python `Path(p).with_suffix(s)`: replace the suffix by `s`, or
append `s` when there is no suffix. -/
def pathWithSuffix (p suffix : String) : String :=
  let old := pathSuffix p
  if old = "" then p ++ suffix
  else String.mk (p.toList.take (p.toList.length - old.toList.length)) ++ suffix

/-- Python `Path(p).parent.name` for a path `p` relative to a repository
root directory named `root`: the name of the containing directory, the
root's own name for a top-level file. -/
def parentName (root p : String) : String :=
  match lastIndexOf '/' p.toList with
  | none => root
  | some i => String.mk (lastComponent [] (p.toList.take i))

/-! ## Working tree model -/

/-- A working tree: an association list from path strings to file
contents.  A path maps to at most one content via `fsLookup`. -/
abbrev FS := List (String × String)

/-- Content of the file at `p`, `none` when no such file exists. -/
def fsLookup : FS → String → Option String
  | [], _ => none
  | (q, c) :: rest, p => if q = p then some c else fsLookup rest p

/-- Remove the file at `p` (no-op when absent). -/
def fsErase : FS → String → FS
  | [], _ => []
  | (q, c) :: rest, p => if q = p then fsErase rest p else (q, c) :: fsErase rest p

/-- `Path.write_text`: create or overwrite the file at `p`. -/
def fsWrite (fs : FS) (p c : String) : FS :=
  (p, c) :: fsErase fs p

/-- `Path.rename`: move the file at `src` to `dst`, overwriting any file
at `dst`; unchanged tree when `src` is absent (the `FileNotFoundError`
is caught by every caller in the source). -/
def fsRename (fs : FS) (src dst : String) : FS :=
  match fsLookup fs src with
  | none => fs
  | some c => fsWrite (fsErase fs src) dst c

/-! ## Repository analyzer (`analyze_repository_structure`) -/

/-- The analysis record built by `analyze_repository_structure`
(`llm_coverage_assistant.py`, lines 61-115). -/
structure Analysis where
  project_type : String := "unknown"
  build_system : String := "unknown"
  languages : List String := []
  source_files : List String := []
  build_files : List String := []
  test_files : List String := []
  has_makefile : Bool := false
  has_cmake : Bool := false
  has_tests : Bool := false
  gcov_compatibility : String := "unknown"
deriving DecidableEq

/-- One iteration of the classification loop of
`analyze_repository_structure`: classify the regular file at relative
path `rel`, first matching rule wins. -/
def classify (root : String) (analysis : Analysis) (rel : String) : Analysis :=
  let file_name := lowerStr (pathName rel)
  let file_suffix := lowerStr (pathSuffix rel)
  if file_name ∈ ["makefile", "makefile.am"] then
    { analysis with has_makefile := true, build_files := analysis.build_files ++ [rel] }
  else if file_name = "cmakelists.txt" then
    { analysis with has_cmake := true, build_files := analysis.build_files ++ [rel] }
  else if file_name ∈ ["configure.ac", "configure.in", "autoconf", "autotools"] then
    { analysis with build_files := analysis.build_files ++ [rel] }
  else if file_suffix ∈ [".c", ".cpp", ".cc", ".cxx", ".c++"] then
    let analysis := { analysis with source_files := analysis.source_files ++ [rel] }
    if "c" ∉ analysis.languages then
      { analysis with
          languages := analysis.languages ++ [if file_suffix = ".c" then "c" else "c++"] }
    else analysis
  else if strContains file_name "test" ∨ lowerStr (parentName root rel) ∈ ["test", "tests"] then
    { analysis with test_files := analysis.test_files ++ [rel], has_tests := true }
  else analysis

/-- `analyze_repository_structure(repo_path)`: classify every regular
file of the traversal (given as the list of relative paths in traversal
order, `root` being the repository directory's own name), then derive
`project_type` and `build_system`. -/
def analyze_repository_structure (root : String) (files : List String) : Analysis :=
  let analysis : Analysis := {}
  let analysis := files.foldl (classify root) analysis
  let analysis :=
    if analysis.languages ≠ [] then
      { analysis with project_type := String.intercalate "/" analysis.languages }
    else analysis
  if analysis.has_cmake then { analysis with build_system := "cmake" }
  else if analysis.has_makefile then { analysis with build_system := "make" }
  else if analysis.source_files ≠ [] ∧ analysis.build_files = [] then
    { analysis with build_system := "simple" }
  else analysis

/-! ## Compatibility checker (`check_gcov_compatibility`) -/

/-- Makefile block of `check_gcov_compatibility` (lines 121-134): find
the first build file whose lowered name contains "makefile"; when it
exists in the tree, read it and flag missing coverage and linking
flags. -/
def makefileIssues (fs : FS) (analysis : Analysis) : List String :=
  if analysis.has_makefile then
    match analysis.build_files.find? (fun b => strContains (lowerStr b) "makefile") with
    | some build_file =>
      match fsLookup fs build_file with
      | some content =>
        (if ¬ strContains content "-fprofile-arcs" ∨ ¬ strContains content "-ftest-coverage"
         then ["Makefile missing Gcov coverage flags"] else []) ++
        (if ¬ strContains content "-lgcov"
         then ["Makefile missing Gcov linking flags"] else [])
      | none => []
    | none => []
  else []

/-- Per-file body of the CMake loop of `check_gcov_compatibility`
(lines 139-143): a missing-configuration issue when the file exists and
mentions neither "coverage" nor "gcov". -/
def cmakeFileIssues (fs : FS) (cmake_file : String) : List String :=
  match fsLookup fs cmake_file with
  | some content =>
    if ¬ strContains (lowerStr content) "coverage" ∧ ¬ strContains (lowerStr content) "gcov"
    then ["CMakeLists.txt missing coverage configuration"] else []
  | none => []

/-- CMake block of `check_gcov_compatibility` (lines 137-143): loop over
every build file whose lowered name contains "cmake". -/
def cmakeIssues (fs : FS) (analysis : Analysis) : List String :=
  if analysis.has_cmake then
    (analysis.build_files.filter fun f => strContains (lowerStr f) "cmake").foldl
      (fun acc cmake_file => acc ++ cmakeFileIssues fs cmake_file) []
  else []

/-- Test block of `check_gcov_compatibility` (lines 146-147). -/
def testIssues (analysis : Analysis) : List String :=
  if ¬ analysis.has_tests then ["No test files found"] else []

/-- Simple-project block of `check_gcov_compatibility` (lines 150-151). -/
def simpleIssues (analysis : Analysis) : List String :=
  if analysis.build_system = "simple" ∧ 1 < analysis.source_files.length then
    ["Multiple source files without build system"]
  else []

/-- `check_gcov_compatibility(repo_path, analysis)` (lines 117-154): the
four blocks append to `compatibility_issues` in order; compatible iff
no issue. -/
def check_gcov_compatibility (fs : FS) (analysis : Analysis) : Bool × List String :=
  let compatibility_issues :=
    makefileIssues fs analysis ++ cmakeIssues fs analysis ++
    testIssues analysis ++ simpleIssues analysis
  (compatibility_issues.length == 0, compatibility_issues)

/-! ## Modification plans and the suggestion provider -/

/-- The `"modifications"` record of a plan (`llm_coverage_assistant.py`;
a missing-file entry is a `(relative path, content)` pair). -/
structure Modifications where
  makefile_changes : List String := []
  cmake_changes : List String := []
  test_compilation : String := ""
  gcov_commands : List String := []
  missing_files : List (String × String) := []
deriving DecidableEq

/-- A structured plan as returned by the suggestion provider: the
modifications plus an explanation. -/
structure PlanResponse where
  modifications : Modifications
  explanation : String
deriving DecidableEq

/-- `_generate_fallback_modifications(analysis, issues)` (lines
279-315): the deterministic plan built without any remote call. -/
def generate_fallback_modifications (analysis : Analysis) (issues : List String) :
    PlanResponse :=
  let _ := issues
  let modifications : Modifications :=
    { makefile_changes := [], cmake_changes := [], test_compilation := "",
      gcov_commands := ["gcov *.gcda", "gcov *.c *.cpp"], missing_files := [] }
  let modifications :=
    if analysis.has_makefile ∨ analysis.build_system = "simple" then
      { modifications with makefile_changes :=
          ["CFLAGS += -fprofile-arcs -ftest-coverage -g -O0",
           "CXXFLAGS += -fprofile-arcs -ftest-coverage -g -O0",
           "LDFLAGS += -lgcov",
           "",
           "coverage:",
           "\t@echo \x27Generating coverage report...\x27",
           "\tgcov *.gcda",
           "\tlcov --capture --directory . --output-file coverage.info",
           "\tgenhtml coverage.info --output-directory coverage_html"] }
    else modifications
  let modifications :=
    if analysis.has_cmake then
      { modifications with cmake_changes :=
          ["# Add coverage flags",
           "set(CMAKE_CXX_FLAGS \"${CMAKE_CXX_FLAGS} -fprofile-arcs -ftest-coverage\")",
           "set(CMAKE_C_FLAGS \"${CMAKE_C_FLAGS} -fprofile-arcs -ftest-coverage\")",
           "target_link_libraries(${TARGET_NAME} gcov)"] }
    else modifications
  { modifications := modifications, explanation := "Basic Gcov compatibility modifications" }

/-- Outcome of the external Bedrock call in
`generate_gcov_modifications` (lines 156-188): the client may be absent
(`self.bedrock_client is None`), the guarded call-and-parse may raise,
or it may succeed with a parsed structured response.  The transport and
JSON extraction themselves are external collaborators. -/
inductive ProviderOutcome where
  | unavailable : ProviderOutcome
  | callRaises : ProviderOutcome
  | succeeds (parsed : PlanResponse) : ProviderOutcome
deriving DecidableEq

/-- `generate_gcov_modifications(repo_path, analysis, issues)` (lines
156-188): without a client, or when the guarded remote call raises, the
deterministic fallback plan is returned; otherwise the parsed remote
response. -/
def generate_gcov_modifications (outcome : ProviderOutcome) (analysis : Analysis)
    (issues : List String) : PlanResponse :=
  match outcome with
  | .unavailable => generate_fallback_modifications analysis issues
  | .callRaises => generate_fallback_modifications analysis issues
  | .succeeds parsed => parsed

/-! ## Transactional apply and rollback -/

/-- Makefile block of `apply_modifications_temporarily` (lines
324-342), acting on the pair (tree, recorded modified files): when
changes are present, either back the existing `Makefile` up under
`with_suffix('.bak')` and write the patched content, or create a new
`Makefile` from the joined change lines. -/
def applyMakefileStep (st : FS × List String) (makefile_changes : List String) :
    FS × List String :=
  if makefile_changes ≠ [] then
    match fsLookup st.1 "Makefile" with
    | some original_content =>
      let backup_path := pathWithSuffix "Makefile" ".bak"
      let fs := fsRename st.1 "Makefile" backup_path
      let modified_files := st.2 ++ [backup_path]
      let new_content := original_content ++ "\n\n# Gcov Coverage Flags\n" ++
        String.intercalate "\n" makefile_changes
      (fsWrite fs "Makefile" new_content, modified_files)
    | none =>
      let makefile_content := String.intercalate "\n" makefile_changes
      (fsWrite st.1 "Makefile" makefile_content, st.2 ++ ["Makefile"])
  else st

/-- CMake block of `apply_modifications_temporarily` (lines 344-355):
when changes are present and `CMakeLists.txt` exists, back it up under
`with_suffix('.bak')` and write the patched content.  There is no
create-on-missing branch. -/
def applyCmakeStep (st : FS × List String) (cmake_changes : List String) :
    FS × List String :=
  if cmake_changes ≠ [] then
    match fsLookup st.1 "CMakeLists.txt" with
    | some original_content =>
      let backup_path := pathWithSuffix "CMakeLists.txt" ".bak"
      let fs := fsRename st.1 "CMakeLists.txt" backup_path
      let modified_files := st.2 ++ [backup_path]
      let new_content := original_content ++ "\n\n# Gcov Coverage Configuration\n" ++
        String.intercalate "\n" cmake_changes
      (fsWrite fs "CMakeLists.txt" new_content, modified_files)
    | none => st
  else st

/-- Missing-files block of `apply_modifications_temporarily` (lines
357-364): write each given content at its relative path (overwriting)
and record the path. -/
def applyMissingStep (st : FS × List String) (missing_files : List (String × String)) :
    FS × List String :=
  missing_files.foldl
    (fun st file_info => (fsWrite st.1 file_info.1 file_info.2, st.2 ++ [file_info.1])) st

/-- `apply_modifications_temporarily(repo_path, modifications)` (lines
317-369): the three blocks in order, returning the patched tree and the
ordered record of modified files for rollback. -/
def apply_modifications_temporarily (fs : FS) (mods : Modifications) :
    FS × List String :=
  applyMissingStep
    (applyCmakeStep (applyMakefileStep (fs, []) mods.makefile_changes) mods.cmake_changes)
    mods.missing_files

/-- One record of `rollback_modifications` (lines 373-386): a `.bak`
path is a backup, so delete the file at `with_suffix('')` if present
and rename the backup to it; any other path is a created file, deleted
if present.  Per-record errors are caught, so a missing backup leaves
the remaining state as is. -/
def rollbackOne (fs : FS) (file_path : String) : FS :=
  if pathSuffix file_path = ".bak" then
    let original_path := pathWithSuffix file_path ""
    let fs := if (fsLookup fs original_path).isSome then fsErase fs original_path else fs
    fsRename fs file_path original_path
  else
    if (fsLookup fs file_path).isSome then fsErase fs file_path else fs

/-- `rollback_modifications(modified_files)` (lines 371-386): process
every record in order, best effort. -/
def rollback_modifications (fs : FS) (modified_files : List String) : FS :=
  modified_files.foldl rollbackOne fs

/-! ## Coverage report synthesizer (`_parse_gcov_files`) -/

/-- One rendered line record of a parsed `.gcov` file: line number,
raw execution-count field, source text with trailing whitespace
stripped. -/
structure GLine where
  number : Nat
  count : String
  source : String
deriving DecidableEq

/-- Per-file accumulator of `_parse_gcov_files`
(`generate_coverage.py`, lines 475-502). -/
structure FileAcc where
  total_lines : Nat
  covered_lines : Nat
  lines : List GLine
deriving DecidableEq

/-- One iteration of the line loop of `_parse_gcov_files` (lines
482-502) over the state (per-file accumulator, aggregate total,
aggregate covered): skip blank lines, split on `':'` capped at three
parts, require a digit line-number field; a digit execution count
greater than zero marks the line covered. -/
def stepLine (st : FileAcc × Nat × Nat) (line : String) : FileAcc × Nat × Nat :=
  if stripStr line ≠ "" then
    let parts := split2 line
    if 3 ≤ parts.length then
      let execution_count := stripStr (parts.getD 0 "")
      let line_number := stripStr (parts.getD 1 "")
      let source_line := parts.getD 2 ""
      if isdigitStr line_number then
        let file_data : FileAcc := { st.1 with total_lines := st.1.total_lines + 1 }
        let agg_total := st.2.1 + 1
        let p : FileAcc × Nat :=
          if isdigitStr execution_count ∧ 0 < strToNat execution_count then
            ({ file_data with covered_lines := file_data.covered_lines + 1 }, st.2.2 + 1)
          else (file_data, st.2.2)
        ({ p.1 with lines := p.1.lines ++
            [{ number := strToNat line_number, count := execution_count,
               source := rstripStr source_line }] }, agg_total, p.2)
      else st
    else st
  else st

/-- One file coverage record of the model (appended at lines 504-506). -/
structure FileCov where
  name : String
  lines : List GLine
  total_lines : Nat
  covered_lines : Nat
  coverage_percentage : Rat
deriving DecidableEq

/-- The aggregate coverage model (lines 463-468, 511-512). -/
structure CoverageData where
  files : List FileCov
  total_lines : Nat
  covered_lines : Nat
  coverage_percentage : Rat
deriving DecidableEq

/-- Per-file body of `_parse_gcov_files` (lines 470-506): run the line
loop, add to the aggregate counters, and append the file record (with
its percentage) only when it has at least one coverable line. -/
def parseOneFile (coverage_data : CoverageData) (f : String × List String) :
    CoverageData :=
  let res := f.2.foldl stepLine (⟨0, 0, []⟩, coverage_data.total_lines, coverage_data.covered_lines)
  let file_data := res.1
  let coverage_data := { coverage_data with total_lines := res.2.1, covered_lines := res.2.2 }
  if 0 < file_data.total_lines then
    { coverage_data with files := coverage_data.files ++
        [{ name := f.1, lines := file_data.lines, total_lines := file_data.total_lines,
           covered_lines := file_data.covered_lines,
           coverage_percentage :=
             (file_data.covered_lines : Rat) / (file_data.total_lines : Rat) * 100 }] }
  else coverage_data

/-- `_parse_gcov_files(gcov_files)` (lines 461-514): each input is a
(file name, read lines) pair — a file whose read raises is skipped, so
it is simply absent from the input list.  The aggregate percentage is
set only when the aggregate total is positive. -/
def parse_gcov_files (gcov_files : List (String × List String)) : CoverageData :=
  let coverage_data :=
    gcov_files.foldl parseOneFile
      { files := [], total_lines := 0, covered_lines := 0, coverage_percentage := 0 }
  if 0 < coverage_data.total_lines then
    { coverage_data with coverage_percentage :=
        (coverage_data.covered_lines : Rat) / (coverage_data.total_lines : Rat) * 100 }
  else coverage_data

/-! ## Concrete instances used by closed theorems -/

/-- A plan whose only content is one CMake change line. -/
def cmakeOnlyPlan : Modifications := { cmake_changes := ["x"] }

/-- A tree holding one `CMakeLists.txt` with content `"orig"`. -/
def cmakeTree : FS := [("CMakeLists.txt", "orig")]

/-- Analysis of a repository whose only build file is a `Makefile`,
with tests present. -/
def makefileOnlyAnalysis : Analysis :=
  { has_makefile := true, build_files := ["Makefile"], has_cmake := false,
    has_tests := true, build_system := "make" }

/-- A Makefile content holding both coverage flags but no `-lgcov`. -/
def flagsNoLink : String := "-fprofile-arcs -ftest-coverage"

/-- An analysis with no test files at all. -/
def noTestsAnalysis : Analysis := { has_tests := false }

/-- One annotated artifact: two coverable lines, one covered. -/
def sampleGcovInput : List (String × List String) := [("f", ["5:1:a", "#:2:b"])]

/-! ## Helper lemmas: the working tree -/

theorem fsLookup_fsErase_ne (fs : FS) (p q : String) (h : q ≠ p) :
    fsLookup (fsErase fs p) q = fsLookup fs q := by
  induction fs with
  | nil => rfl
  | cons kv rest ih =>
    obtain ⟨k, v⟩ := kv
    by_cases hk : k = p
    · simp only [fsErase, if_pos hk, ih]
      rw [fsLookup, if_neg (by rw [hk]; exact fun e => h e.symm)]
    · simp only [fsErase, if_neg hk]
      by_cases hq : k = q
      · simp [fsLookup, hq]
      · simp only [fsLookup, if_neg hq, ih]

theorem fsLookup_fsWrite_ne (fs : FS) (p c q : String) (h : q ≠ p) :
    fsLookup (fsWrite fs p c) q = fsLookup fs q := by
  unfold fsWrite
  rw [fsLookup, if_neg (fun e => h e.symm), fsLookup_fsErase_ne fs p q h]

theorem fsLookup_fsRename_ne (fs : FS) (src dst q : String) (h1 : q ≠ src) (h2 : q ≠ dst) :
    fsLookup (fsRename fs src dst) q = fsLookup fs q := by
  unfold fsRename
  cases hs : fsLookup fs src with
  | none => rfl
  | some c => rw [fsLookup_fsWrite_ne _ _ _ _ h2, fsLookup_fsErase_ne _ _ _ h1]

/-! ## Helper lemmas: compatibility-checker issue vocabulary -/

theorem mem_makefileIssues (fs : FS) (analysis : Analysis) (x : String)
    (hx : x ∈ makefileIssues fs analysis) :
    x = "Makefile missing Gcov coverage flags" ∨
      x = "Makefile missing Gcov linking flags" := by
  unfold makefileIssues at hx
  split at hx
  · split at hx
    · split at hx
      · rcases List.mem_append.mp hx with h | h
        · split at h
          · exact Or.inl (by simpa using h)
          · simp at h
        · split at h
          · exact Or.inr (by simpa using h)
          · simp at h
      · simp at hx
    · simp at hx
  · simp at hx

theorem mem_cmakeFileIssues (fs : FS) (cmake_file x : String)
    (hx : x ∈ cmakeFileIssues fs cmake_file) :
    x = "CMakeLists.txt missing coverage configuration" := by
  unfold cmakeFileIssues at hx
  split at hx
  · split at hx
    · simpa using hx
    · simp at hx
  · simp at hx

theorem mem_cmakeFold (fs : FS) (files : List String) (acc : List String) (x : String)
    (hx : x ∈ files.foldl (fun acc cmake_file => acc ++ cmakeFileIssues fs cmake_file) acc) :
    x ∈ acc ∨ x = "CMakeLists.txt missing coverage configuration" := by
  induction files generalizing acc with
  | nil => exact Or.inl hx
  | cons f rest ih =>
    rcases ih _ hx with h | h
    · rcases List.mem_append.mp h with h | h
      · exact Or.inl h
      · exact Or.inr (mem_cmakeFileIssues fs f x h)
    · exact Or.inr h

theorem mem_cmakeIssues (fs : FS) (analysis : Analysis) (x : String)
    (hx : x ∈ cmakeIssues fs analysis) :
    x = "CMakeLists.txt missing coverage configuration" := by
  unfold cmakeIssues at hx
  split at hx
  · rcases mem_cmakeFold fs _ [] x hx with h | h
    · simp at h
    · exact h
  · simp at hx

theorem mem_testIssues (analysis : Analysis) (x : String) (hx : x ∈ testIssues analysis) :
    x = "No test files found" := by
  unfold testIssues at hx
  split at hx
  · simpa using hx
  · simp at hx

theorem mem_simpleIssues (analysis : Analysis) (x : String) (hx : x ∈ simpleIssues analysis) :
    x = "Multiple source files without build system" := by
  unfold simpleIssues at hx
  split at hx
  · simpa using hx
  · simp at hx

/-! ## Helper lemmas: the apply steps -/

theorem makefile_backup_path : pathWithSuffix "Makefile" ".bak" = "Makefile.bak" := by decide

theorem applyMakefileStep_lookup_other (st : FS × List String) (makefile_changes : List String)
    (q : String) (h1 : q ≠ "Makefile") (h2 : q ≠ "Makefile.bak") :
    fsLookup (applyMakefileStep st makefile_changes).1 q = fsLookup st.1 q := by
  unfold applyMakefileStep
  split
  · cases hm : fsLookup st.1 "Makefile" with
    | none => simp only [fsLookup_fsWrite_ne _ _ _ _ h1]
    | some c =>
      simp only [makefile_backup_path]
      rw [fsLookup_fsWrite_ne _ _ _ _ h1, fsLookup_fsRename_ne _ _ _ _ h1 h2]
  · rfl

theorem applyMakefileStep_records (st : FS × List String) (makefile_changes : List String)
    (x : String) (hx : x ∈ (applyMakefileStep st makefile_changes).2) :
    x ∈ st.2 ∨ x = "Makefile.bak" ∨ x = "Makefile" := by
  unfold applyMakefileStep at hx
  split at hx
  · cases hm : fsLookup st.1 "Makefile" with
    | none =>
      rw [hm] at hx
      rcases List.mem_append.mp hx with h | h
      · exact Or.inl h
      · exact Or.inr (Or.inr (by simpa using h))
    | some c =>
      rw [hm] at hx
      simp only [makefile_backup_path] at hx
      rcases List.mem_append.mp hx with h | h
      · exact Or.inl h
      · exact Or.inr (Or.inl (by simpa using h))
  · exact Or.inl hx

theorem applyCmakeStep_absent (st : FS × List String) (cmake_changes : List String)
    (h : fsLookup st.1 "CMakeLists.txt" = none) :
    applyCmakeStep st cmake_changes = st := by
  unfold applyCmakeStep
  split
  · rw [h]
  · rfl

theorem applyMissingStep_lookup (missing_files : List (String × String))
    (st : FS × List String) (q : String) (h : ∀ mf ∈ missing_files, mf.1 ≠ q) :
    fsLookup (applyMissingStep st missing_files).1 q = fsLookup st.1 q := by
  induction missing_files generalizing st with
  | nil => rfl
  | cons mf rest ih =>
    have step : applyMissingStep st (mf :: rest) =
        applyMissingStep (fsWrite st.1 mf.1 mf.2, st.2 ++ [mf.1]) rest := rfl
    rw [step, ih _ fun m hm => h m (List.mem_cons_of_mem _ hm)]
    exact fsLookup_fsWrite_ne _ _ _ _ fun e => h mf (List.mem_cons_self mf rest) e.symm

theorem applyMissingStep_records (missing_files : List (String × String))
    (st : FS × List String) (x : String) (hx : x ∈ (applyMissingStep st missing_files).2) :
    x ∈ st.2 ∨ ∃ mf ∈ missing_files, x = mf.1 := by
  induction missing_files generalizing st with
  | nil => exact Or.inl hx
  | cons mf rest ih =>
    have step : applyMissingStep st (mf :: rest) =
        applyMissingStep (fsWrite st.1 mf.1 mf.2, st.2 ++ [mf.1]) rest := rfl
    rw [step] at hx
    rcases ih _ hx with h | ⟨m, hm, he⟩
    · rcases List.mem_append.mp h with h | h
      · exact Or.inl h
      · exact Or.inr ⟨mf, List.mem_cons_self mf rest, by simpa using h⟩
    · exact Or.inr ⟨m, List.mem_cons_of_mem _ hm, he⟩

/-! ## Helper lemmas: colon splitting -/

theorem splitFirst_parts (cs : List Char) (a b : List Char)
    (h : splitFirst cs = some (a, b)) : cs = a ++ ':' :: b := by
  induction cs generalizing a b with
  | nil => simp [splitFirst] at h
  | cons c rest ih =>
    unfold splitFirst at h
    split at h
    · next hc =>
      simp only [Option.some.injEq, Prod.mk.injEq] at h
      obtain ⟨ha, hb⟩ := h
      subst ha; subst hb
      simp [hc]
    · cases hsp : splitFirst rest with
      | none => rw [hsp] at h; simp at h
      | some p =>
        obtain ⟨a', b'⟩ := p
        rw [hsp] at h
        simp only [Option.some.injEq, Prod.mk.injEq] at h
        obtain ⟨ha, hb⟩ := h
        subst ha; subst hb
        rw [ih a' b' hsp]
        simp

theorem count_lt_two_split2 (line : String) (h : line.toList.count ':' < 2) :
    (split2 line).length < 3 := by
  unfold split2
  rcases h1 : splitFirst line.toList with _ | ⟨a, rest⟩
  · simp [h1]
  · rcases h2 : splitFirst rest with _ | ⟨b, rest2⟩
    · simp [h1, h2]
    · exfalso
      have e1 := splitFirst_parts _ _ _ h1
      have e2 := splitFirst_parts _ _ _ h2
      rw [e1, e2] at h
      simp [List.count_append, List.count_cons] at h
      omega

/-! ## Claim C1 -/

/-- Claim C1 (code bug, evaluated at the failing input): for the plan
with one CMake change line applied to a tree holding `CMakeLists.txt`
with content `"orig"` (no missing files at all), apply followed by
rollback does NOT restore `CMakeLists.txt`: the patched content is
still there, and the original content ends up under the wrong name
`CMakeLists`, because `with_suffix('.bak')` turns `CMakeLists.txt` into
`CMakeLists.bak` and rollback's `with_suffix('')` then rebuilds
`CMakeLists`, not `CMakeLists.txt`.  The final conjunct records that
the content left at `CMakeLists.txt` differs from the original. -/
theorem apply_rollback_cmake_not_restored :
    fsLookup
        (rollback_modifications (apply_modifications_temporarily cmakeTree cmakeOnlyPlan).1
          (apply_modifications_temporarily cmakeTree cmakeOnlyPlan).2)
        "CMakeLists.txt" = some "orig\n\n# Gcov Coverage Configuration\nx" ∧
    fsLookup
        (rollback_modifications (apply_modifications_temporarily cmakeTree cmakeOnlyPlan).1
          (apply_modifications_temporarily cmakeTree cmakeOnlyPlan).2)
        "CMakeLists" = some "orig" ∧
    (("orig\n\n# Gcov Coverage Configuration\nx" : String) == "orig") = false := by
  refine ⟨by decide, by decide, by decide⟩

/-! ## Claim C2 -/

/-- Claim C2 counterexample: a plan with a non-empty `cmake_changes`
applied to a tree with no `CMakeLists.txt` creates nothing and records
nothing — the claimed create-and-record behaviour does not happen. -/
theorem cmake_create_missing_counterexample :
    fsLookup (apply_modifications_temporarily [] cmakeOnlyPlan).1 "CMakeLists.txt" = none ∧
    (apply_modifications_temporarily [] cmakeOnlyPlan).2 = [] := by
  refine ⟨by decide, by decide⟩

/-- Claim C2 (amended): when `cmake_changes` is non-empty but no
`CMakeLists.txt` exists at the root (and no missing-file entry targets
that path), apply leaves `CMakeLists.txt` absent and records no entry
for it: the create-on-missing branch exists only for `Makefile`. -/
theorem applyCmake_missing_skipped (fs : FS) (mods : Modifications)
    (_hch : mods.cmake_changes ≠ [])
    (habs : fsLookup fs "CMakeLists.txt" = none)
    (hmf : ∀ mf ∈ mods.missing_files, mf.1 ≠ "CMakeLists.txt") :
    fsLookup (apply_modifications_temporarily fs mods).1 "CMakeLists.txt" = none ∧
    "CMakeLists.txt" ∉ (apply_modifications_temporarily fs mods).2 := by
  have h1 : fsLookup (applyMakefileStep (fs, []) mods.makefile_changes).1 "CMakeLists.txt"
      = none := by
    rw [applyMakefileStep_lookup_other _ _ _ (by decide) (by decide)]
    exact habs
  have h2 : applyCmakeStep (applyMakefileStep (fs, []) mods.makefile_changes)
      mods.cmake_changes = applyMakefileStep (fs, []) mods.makefile_changes :=
    applyCmakeStep_absent _ _ h1
  unfold apply_modifications_temporarily
  rw [h2]
  constructor
  · rw [applyMissingStep_lookup _ _ _ hmf]
    exact h1
  · intro hx
    rcases applyMissingStep_records _ _ _ hx with hx2 | ⟨mf, hmem, heq⟩
    · rcases applyMakefileStep_records _ _ _ hx2 with h3 | h3 | h3
      · simp at h3
      · exact absurd h3 (by decide)
      · exact absurd h3 (by decide)
    · exact hmf mf hmem heq.symm

/-- Claim C2 witness: the amended theorem at the concrete plan with one
CMake change line over the empty tree. -/
theorem applyCmake_missing_skipped_witness :
    fsLookup (apply_modifications_temporarily [] cmakeOnlyPlan).1 "CMakeLists.txt" = none ∧
    "CMakeLists.txt" ∉ (apply_modifications_temporarily [] cmakeOnlyPlan).2 :=
  applyCmake_missing_skipped [] cmakeOnlyPlan (by decide) (by decide) (by decide)

/-! ## Claim C3 -/

/-- Claim C3 counterexample: a repository of two `.cpp` files yields
`languages = ["c++", "c++"]` — a duplicate entry — and `projectType`
`"c++/c++"` rather than `"c++"`: the dedup guard only ever tests
membership of `"c"`. -/
theorem languages_duplicate_counterexample :
    (analyze_repository_structure "repo" ["a.cpp", "b.cpp"]).languages = ["c++", "c++"] ∧
    (analyze_repository_structure "repo" ["a.cpp", "b.cpp"]).project_type = "c++/c++" ∧
    (("c++/c++" : String) == "c++") = false := by
  refine ⟨by decide, by decide, by decide⟩

/-! ## Claim C9 -/

/-- Claim C9 counterexample: with `has_makefile` set and the recorded
build file `Makefile` absent from the tree, `check_gcov_compatibility`
appends no missing-flag issue at all and even reports the repository
compatible — the absent file's checks are skipped, not treated as
empty content. -/
theorem check_absent_makefile_counterexample :
    check_gcov_compatibility [] makefileOnlyAnalysis = (true, []) := by decide

/-- Claim C9 (amended): when the first recorded build file whose
lowered name contains "makefile" is absent from the tree,
`check_gcov_compatibility` skips that file's content checks entirely —
it returns normally and appends neither Makefile flag issue (rather
than treating the content as empty, which would have appended both). -/
theorem check_absent_makefile_skipped (fs : FS) (analysis : Analysis) (build_file : String)
    (hm : analysis.has_makefile = true)
    (hfind : analysis.build_files.find? (fun b => strContains (lowerStr b) "makefile") =
      some build_file)
    (habs : fsLookup fs build_file = none) :
    "Makefile missing Gcov coverage flags" ∉ (check_gcov_compatibility fs analysis).2 ∧
    "Makefile missing Gcov linking flags" ∉ (check_gcov_compatibility fs analysis).2 := by
  have hmk : makefileIssues fs analysis = [] := by
    unfold makefileIssues
    rw [hm, hfind]
    simp [habs]
  constructor <;>
  · intro hx
    unfold check_gcov_compatibility at hx
    simp only [hmk, List.nil_append, List.mem_append] at hx
    rcases hx with (h | h) | h
    · exact absurd (mem_cmakeIssues _ _ _ h) (by decide)
    · exact absurd (mem_testIssues _ _ h) (by decide)
    · exact absurd (mem_simpleIssues _ _ h) (by decide)

/-- Claim C9 witness: the amended theorem at the empty tree and the
analysis whose only build file is `Makefile`. -/
theorem check_absent_makefile_skipped_witness :
    "Makefile missing Gcov coverage flags" ∉ (check_gcov_compatibility [] makefileOnlyAnalysis).2 ∧
    "Makefile missing Gcov linking flags" ∉ (check_gcov_compatibility [] makefileOnlyAnalysis).2 :=
  check_absent_makefile_skipped [] makefileOnlyAnalysis "Makefile" (by decide) (by decide)
    (by decide)

/-! ## Claim C4 -/

/-- Claim C4: a repository whose only build file is a `Makefile`
containing both `-fprofile-arcs` and `-ftest-coverage` but no `-lgcov`,
with tests present, yields `isCompatible = false` with exactly the
one-element issue list `["Makefile missing Gcov linking flags"]`. -/
theorem check_makefile_linking_only (fs : FS) (analysis : Analysis) (content : String)
    (hm : analysis.has_makefile = true) (hc : analysis.has_cmake = false)
    (ht : analysis.has_tests = true) (hb : analysis.build_files = ["Makefile"])
    (hbs : analysis.build_system = "make")
    (hf : fsLookup fs "Makefile" = some content)
    (h1 : strContains content "-fprofile-arcs" = true)
    (h2 : strContains content "-ftest-coverage" = true)
    (h3 : strContains content "-lgcov" = false) :
    check_gcov_compatibility fs analysis =
      (false, ["Makefile missing Gcov linking flags"]) := by
  have hfind : (["Makefile"].find? fun b => strContains (lowerStr b) "makefile") =
      some "Makefile" := by decide
  have hmk : makefileIssues fs analysis = ["Makefile missing Gcov linking flags"] := by
    unfold makefileIssues
    rw [hm, hb, hfind]
    simp [hf, h1, h2, h3]
  have hcm : cmakeIssues fs analysis = [] := by
    unfold cmakeIssues
    rw [hc]
    simp
  have hts : testIssues analysis = [] := by
    unfold testIssues
    rw [ht]
    simp
  have hsp : simpleIssues analysis = [] := by
    unfold simpleIssues
    rw [hbs]
    simp
  unfold check_gcov_compatibility
  rw [hmk, hcm, hts, hsp]
  rfl

/-- Claim C4 witness: the theorem at a tree whose `Makefile` holds both
coverage flags and no linking flag, with the matching analysis. -/
theorem check_makefile_linking_only_witness :
    check_gcov_compatibility [("Makefile", flagsNoLink)] makefileOnlyAnalysis =
      (false, ["Makefile missing Gcov linking flags"]) :=
  check_makefile_linking_only [("Makefile", flagsNoLink)] makefileOnlyAnalysis flagsNoLink
    (by decide) (by decide) (by decide) (by decide) (by decide) (by decide) (by decide)
    (by decide) (by decide)

/-! ## Claim C5 -/

/-- Claim C5: the issue list of `check_gcov_compatibility` contains
"No test files found" exactly when the analysis has `has_tests =
false`; in particular its absence implies `has_tests = true`. -/
theorem no_test_issue_iff_no_tests (fs : FS) (analysis : Analysis) :
    ("No test files found" ∈ (check_gcov_compatibility fs analysis).2) ↔
      analysis.has_tests = false := by
  unfold check_gcov_compatibility
  simp only [List.mem_append]
  constructor
  · rintro (((h | h) | h) | h)
    · rcases mem_makefileIssues _ _ _ h with h | h
      · exact absurd h (by decide)
      · exact absurd h (by decide)
    · exact absurd (mem_cmakeIssues _ _ _ h) (by decide)
    · unfold testIssues at h
      split at h
      · next hcond => simpa using hcond
      · simp at h
    · exact absurd (mem_simpleIssues _ _ h) (by decide)
  · intro h
    refine Or.inl (Or.inr ?_)
    unfold testIssues
    simp [h]

/-- Claim C5 witness: both directions at concrete analyses — the
no-tests analysis produces the issue, and its presence forces
`has_tests = false` there. -/
theorem no_test_issue_iff_no_tests_witness :
    ("No test files found" ∈ (check_gcov_compatibility [] noTestsAnalysis).2) ∧
    (("No test files found" ∈ (check_gcov_compatibility [] makefileOnlyAnalysis).2) ↔
      makefileOnlyAnalysis.has_tests = false) :=
  ⟨(no_test_issue_iff_no_tests [] noTestsAnalysis).mpr (by decide),
   no_test_issue_iff_no_tests [] makefileOnlyAnalysis⟩

/-! ## Claim C3 (amended) -/

theorem classify_lang_inv (root rel : String) (a : Analysis)
    (h1 : a.languages.count "c" ≤ 1)
    (h2 : ∀ l ∈ a.languages, l = "c" ∨ l = "c++") :
    ((classify root a rel).languages.count "c" ≤ 1) ∧
      ∀ l ∈ (classify root a rel).languages, l = "c" ∨ l = "c++" := by
  unfold classify
  dsimp only
  split
  · exact ⟨h1, h2⟩
  · split
    · exact ⟨h1, h2⟩
    · split
      · exact ⟨h1, h2⟩
      · split
        · split
          · next hnotc =>
            constructor
            · rw [List.count_append]
              have hz : a.languages.count "c" = 0 := by
                rw [List.count_eq_zero]
                simpa using hnotc
              rw [hz]
              split <;> simp
            · intro l hl
              rcases List.mem_append.mp hl with h | h
              · exact h2 l h
              · split at h <;> simp at h <;> simp [h]
          · exact ⟨h1, h2⟩
        · split
          · exact ⟨h1, h2⟩
          · exact ⟨h1, h2⟩

theorem foldl_classify_lang (root : String) (files : List String) (a : Analysis)
    (h1 : a.languages.count "c" ≤ 1)
    (h2 : ∀ l ∈ a.languages, l = "c" ∨ l = "c++") :
    ((files.foldl (classify root) a).languages.count "c" ≤ 1) ∧
      ∀ l ∈ (files.foldl (classify root) a).languages, l = "c" ∨ l = "c++" := by
  induction files generalizing a with
  | nil => exact ⟨h1, h2⟩
  | cons f rest ih =>
    obtain ⟨g1, g2⟩ := classify_lang_inv root f a h1 h2
    exact ih _ g1 g2

theorem analyze_languages (root : String) (files : List String) :
    (analyze_repository_structure root files).languages =
      (files.foldl (classify root) {}).languages := by
  unfold analyze_repository_structure
  dsimp only
  repeat' split
  all_goals rfl

/-- Claim C3 (amended): the dedup guard of the language rule tests only
membership of "c", so `languages` holds "c" at most once (duplicates of
"c++" are possible, as the counterexample shows), every entry is "c" or
"c++", and a repository whose sources are exactly one `.cpp` file gets
`projectType = "c++"`. -/
theorem languages_c_once (root : String) (files : List String) :
    ((analyze_repository_structure root files).languages.count "c" ≤ 1) ∧
    (∀ l ∈ (analyze_repository_structure root files).languages, l = "c" ∨ l = "c++") ∧
    (analyze_repository_structure "repo" ["main.cpp"]).project_type = "c++" := by
  have base := foldl_classify_lang root files {} (by simp) (by simp)
  rw [analyze_languages root files]
  exact ⟨base.1, base.2, by decide⟩

/-! ## Claim C8 -/

/-- Claim C8: when no Bedrock client exists, or the guarded remote call
raises, `generate_gcov_modifications` returns the deterministic
fallback plan rather than propagating the error; the fallback's record
type carries all six plan fields, and its `gcov_commands` is always
the fixed non-empty two-command list with the fixed explanation. -/
theorem fallback_on_provider_failure (analysis : Analysis) (issues : List String) :
    generate_gcov_modifications .unavailable analysis issues =
      generate_fallback_modifications analysis issues ∧
    generate_gcov_modifications .callRaises analysis issues =
      generate_fallback_modifications analysis issues ∧
    (generate_fallback_modifications analysis issues).modifications.gcov_commands =
      ["gcov *.gcda", "gcov *.c *.cpp"] ∧
    (generate_fallback_modifications analysis issues).explanation =
      "Basic Gcov compatibility modifications" := by
  refine ⟨rfl, rfl, ?_, rfl⟩
  unfold generate_fallback_modifications
  split <;> split <;> rfl

/-! ## Claim C10 -/

/-- Claim C10: a line that is non-empty after trimming but holds fewer
than two colons (so the capped split yields fewer than three parts) is
ignored entirely by the line loop: the whole parser state — per-file
totals, aggregate totals, and line records — is unchanged. -/
theorem short_line_ignored (st : FileAcc × Nat × Nat) (line : String)
    (hne : stripStr line ≠ "") (hcol : line.toList.count ':' < 2) :
    stepLine st line = st := by
  have hlen := count_lt_two_split2 line hcol
  unfold stepLine
  rw [if_pos hne]
  simp only [if_neg (show ¬ 3 ≤ (split2 line).length by omega)]

/-- Claim C10 witness: the theorem at the colon-free non-blank line
`"lcov.info"` from the zero state. -/
theorem short_line_ignored_witness :
    stepLine (⟨0, 0, []⟩, 0, 0) "lcov.info" = (⟨0, 0, []⟩, 0, 0) :=
  short_line_ignored (⟨0, 0, []⟩, 0, 0) "lcov.info" (by decide) (by decide)

/-! ## Claim C6 -/

/-- Claim C6: for a well-formed annotated line (non-blank, at least two
colons), the line loop counts it as coverable exactly when the trimmed
line-number field is all digits, and counts a coverable line as covered
exactly when the trimmed execution-count field is all digits with value
greater than zero.  On the concrete lines: `"5:10:   return 0;"`
records line 10 as covered (count "5"), `"#####:10:   return 0;"` and
`"0:10:x"` record line 10 as not covered, and a line whose line-number
field is `"-"` is neither counted nor recorded. -/
theorem gcov_line_classification :
    (∀ (fa : FileAcc) (tot cov : Nat) (line : String),
        stripStr line ≠ "" → 3 ≤ (split2 line).length →
        (isdigitStr (stripStr ((split2 line).getD 1 "")) = false →
          stepLine (fa, tot, cov) line = (fa, tot, cov)) ∧
        (isdigitStr (stripStr ((split2 line).getD 1 "")) = true →
          (stepLine (fa, tot, cov) line).1.total_lines = fa.total_lines + 1 ∧
          ((stepLine (fa, tot, cov) line).1.covered_lines = fa.covered_lines + 1 ↔
            (isdigitStr (stripStr ((split2 line).getD 0 "")) = true ∧
              0 < strToNat (stripStr ((split2 line).getD 0 "")))))) ∧
    stepLine (⟨0, 0, []⟩, 0, 0) "5:10:   return 0;" =
      (⟨1, 1, [⟨10, "5", "   return 0;"⟩]⟩, 1, 1) ∧
    stepLine (⟨0, 0, []⟩, 0, 0) "#####:10:   return 0;" =
      (⟨1, 0, [⟨10, "#####", "   return 0;"⟩]⟩, 1, 0) ∧
    stepLine (⟨0, 0, []⟩, 0, 0) "0:10:x" = (⟨1, 0, [⟨10, "0", "x"⟩]⟩, 1, 0) ∧
    stepLine (⟨0, 0, []⟩, 0, 0) "5:-:x" = (⟨0, 0, []⟩, 0, 0) := by
  refine ⟨?_, by decide, by decide, by decide, by decide⟩
  intro fa tot cov line hne hlen
  constructor
  · intro hnd
    unfold stepLine
    rw [if_pos hne]
    simp only [if_pos hlen, hnd]
    simp
  · intro hd
    unfold stepLine
    rw [if_pos hne]
    simp only [if_pos hlen, hd]
    rw [if_pos trivial]
    constructor
    · split <;> rfl
    · split
      · next hcov =>
        exact ⟨fun _ => hcov, fun _ => rfl⟩
      · next hcov =>
        constructor
        · intro habs
          have hx : fa.covered_lines = fa.covered_lines + 1 := habs
          omega
        · intro hc
          exact absurd hc hcov

/-! ## Claim C7 -/

theorem stepLine_le (st : FileAcc × Nat × Nat) (line : String)
    (h1 : st.1.covered_lines ≤ st.1.total_lines) (h2 : st.2.2 ≤ st.2.1) :
    (stepLine st line).1.covered_lines ≤ (stepLine st line).1.total_lines ∧
      (stepLine st line).2.2 ≤ (stepLine st line).2.1 := by
  unfold stepLine
  dsimp only
  split
  · split
    · split
      · split
        · exact ⟨Nat.succ_le_succ h1, Nat.succ_le_succ h2⟩
        · exact ⟨Nat.le_succ_of_le h1, Nat.le_succ_of_le h2⟩
      · exact ⟨h1, h2⟩
    · exact ⟨h1, h2⟩
  · exact ⟨h1, h2⟩

theorem foldl_stepLine_le (lines : List String) (st : FileAcc × Nat × Nat)
    (h1 : st.1.covered_lines ≤ st.1.total_lines) (h2 : st.2.2 ≤ st.2.1) :
    (lines.foldl stepLine st).1.covered_lines ≤ (lines.foldl stepLine st).1.total_lines ∧
      (lines.foldl stepLine st).2.2 ≤ (lines.foldl stepLine st).2.1 := by
  induction lines generalizing st with
  | nil => exact ⟨h1, h2⟩
  | cons l rest ih =>
    obtain ⟨g1, g2⟩ := stepLine_le st l h1 h2
    exact ih _ g1 g2

theorem parseOneFile_inv (cd : CoverageData) (f : String × List String)
    (h1 : cd.covered_lines ≤ cd.total_lines)
    (h2 : ∀ fc ∈ cd.files, fc.covered_lines ≤ fc.total_lines ∧ 0 < fc.total_lines ∧
      fc.coverage_percentage = (fc.covered_lines : Rat) / (fc.total_lines : Rat) * 100)
    (h3 : cd.coverage_percentage = 0) :
    (parseOneFile cd f).covered_lines ≤ (parseOneFile cd f).total_lines ∧
      (∀ fc ∈ (parseOneFile cd f).files, fc.covered_lines ≤ fc.total_lines ∧
        0 < fc.total_lines ∧
        fc.coverage_percentage = (fc.covered_lines : Rat) / (fc.total_lines : Rat) * 100) ∧
      (parseOneFile cd f).coverage_percentage = 0 := by
  have hres := foldl_stepLine_le f.2 (⟨0, 0, []⟩, cd.total_lines, cd.covered_lines)
    (Nat.le_refl 0) h1
  unfold parseOneFile
  dsimp only
  split
  · next hpos =>
    refine ⟨hres.2, ?_, h3⟩
    intro fc hfc
    rcases List.mem_append.mp hfc with hm | hm
    · exact h2 fc hm
    · obtain rfl := List.mem_singleton.mp hm
      exact ⟨hres.1, hpos, rfl⟩
  · exact ⟨hres.2, h2, h3⟩

theorem foldl_parse_inv (gcov_files : List (String × List String)) (cd : CoverageData)
    (h1 : cd.covered_lines ≤ cd.total_lines)
    (h2 : ∀ fc ∈ cd.files, fc.covered_lines ≤ fc.total_lines ∧ 0 < fc.total_lines ∧
      fc.coverage_percentage = (fc.covered_lines : Rat) / (fc.total_lines : Rat) * 100)
    (h3 : cd.coverage_percentage = 0) :
    (gcov_files.foldl parseOneFile cd).covered_lines ≤
        (gcov_files.foldl parseOneFile cd).total_lines ∧
      (∀ fc ∈ (gcov_files.foldl parseOneFile cd).files,
        fc.covered_lines ≤ fc.total_lines ∧ 0 < fc.total_lines ∧
        fc.coverage_percentage = (fc.covered_lines : Rat) / (fc.total_lines : Rat) * 100) ∧
      (gcov_files.foldl parseOneFile cd).coverage_percentage = 0 := by
  induction gcov_files generalizing cd with
  | nil => exact ⟨h1, h2, h3⟩
  | cons f rest ih =>
    obtain ⟨g1, g2, g3⟩ := parseOneFile_inv cd f h1 h2 h3
    exact ih _ g1 g2 g3

/-- Claim C7: for every parsed input, the model satisfies
`coveredLines ≤ totalLines` in the aggregate and in every per-file
record; the percentage equals covered / total × 100 whenever the total
is positive and equals 0 when it is 0 (per file this holds
unconditionally because files only enter the list with a positive
total); and every file with zero coverable lines is excluded from the
file list (each listed file has `0 < total_lines`). -/
theorem coverage_model_invariants (gcov_files : List (String × List String)) :
    (parse_gcov_files gcov_files).covered_lines ≤ (parse_gcov_files gcov_files).total_lines ∧
    (∀ fc ∈ (parse_gcov_files gcov_files).files,
        fc.covered_lines ≤ fc.total_lines ∧ 0 < fc.total_lines ∧
        fc.coverage_percentage = (fc.covered_lines : Rat) / (fc.total_lines : Rat) * 100) ∧
    (0 < (parse_gcov_files gcov_files).total_lines →
      (parse_gcov_files gcov_files).coverage_percentage =
        ((parse_gcov_files gcov_files).covered_lines : Rat) /
          ((parse_gcov_files gcov_files).total_lines : Rat) * 100) ∧
    ((parse_gcov_files gcov_files).total_lines = 0 →
      (parse_gcov_files gcov_files).coverage_percentage = 0) := by
  have base := foldl_parse_inv gcov_files
    { files := [], total_lines := 0, covered_lines := 0, coverage_percentage := 0 }
    (Nat.le_refl 0) (by simp) rfl
  unfold parse_gcov_files
  dsimp only
  split
  · next hpos =>
    exact ⟨base.1, base.2.1, fun _ => rfl, fun hz => absurd (hz ▸ hpos) (lt_irrefl 0)⟩
  · next hneg =>
    exact ⟨base.1, base.2.1, fun hp => absurd hp hneg, fun _ => base.2.2⟩

/-- Claim C7 witness: the invariants instantiated at the sample
artifact with two coverable lines, one of them covered, and at the
empty input (aggregate total 0, percentage 0). -/
theorem coverage_model_invariants_witness :
    (parse_gcov_files sampleGcovInput).covered_lines ≤
        (parse_gcov_files sampleGcovInput).total_lines ∧
    (parse_gcov_files sampleGcovInput).coverage_percentage =
      ((parse_gcov_files sampleGcovInput).covered_lines : Rat) /
        ((parse_gcov_files sampleGcovInput).total_lines : Rat) * 100 ∧
    (parse_gcov_files []).coverage_percentage = 0 :=
  ⟨(coverage_model_invariants sampleGcovInput).1,
   (coverage_model_invariants sampleGcovInput).2.2.1 (by decide),
   (coverage_model_invariants []).2.2.2 (by decide)⟩

end Gcov
